import Mathlib

/-!
Verification development for the chicken-coop IoT event-coordination core.

The definitions below are a shallow embedding of the TypeScript source:

  - src/src/mastra/tools/mqtt/mqtt-subscribe.ts   (topic matcher, dispatcher)
  - src/src/mastra/tools/utils/shared-memory-tool.ts  (shared event store)
  - src/src/mastra/tools/chicken-coop/feeder-control.ts  (temperature safety evaluator)
  - src/unnamed/part_002  (feed scheduler tool)

Modelling conventions:
  - JavaScript numbers are modelled as `Rat` (exact for all arithmetic the
    claims exercise; float64 rounding is not modelled).
  - Instants (`Date` values, `Date.now()`) are rationals counting milliseconds
    since the epoch, as in JavaScript.
  - Mutable module state (the store array, the subscription map, the feeding
    records, the rate limiter) is passed explicitly; every embedded operation
    returns its result together with the updated state.
  - A thrown JavaScript `Error` is an `Except.error` value.
  - `Map` objects are association lists in insertion order; `Map.set` replaces
    an existing key in place, otherwise appends.
-/

/-! ### Character-list string helpers

Kernel-evaluable models of the JavaScript string operations the source uses:
`String.prototype.split("/")`, `String.prototype.includes`,
`String.prototype.toLowerCase`.
-/

def splitSlashAux : List Char → List Char → List String
  | [], acc => [String.mk acc.reverse]
  | c :: rest, acc =>
    if c = '/' then String.mk acc.reverse :: splitSlashAux rest []
    else splitSlashAux rest (c :: acc)

/-- Model of `topic.split("/")` : splitting on the slash character, keeping
empty segments, never returning an empty list. -/
def splitSlash (s : String) : List String :=
  splitSlashAux s.toList []

def listStartsWith : List Char → List Char → Bool
  | [], _ => true
  | _ :: _, [] => false
  | p :: ps, c :: cs => p = c && listStartsWith ps cs

def listHasInfix (pat : List Char) : List Char → Bool
  | [] => listStartsWith pat []
  | c :: rest => listStartsWith pat (c :: rest) || listHasInfix pat rest

/-- Model of `s.includes(pat)` : substring containment. -/
def strIncludes (s pat : String) : Bool :=
  listHasInfix pat.toList s.toList

/-- Model of `s.toLowerCase()` for the ASCII topics the dispatcher handles. -/
def strToLower (s : String) : String :=
  String.mk (s.toList.map Char.toLower)

/-! ### Topic matcher (mqtt-subscribe.ts, `topicMatches`, lines 273-284)

The source walks the pattern segments by index `i`:

    for (let i = 0; i < subParts.length; i++) {
      if (subParts[i] === "#") return true;
      if (subParts[i] === "+") continue;
      if (i >= actualParts.length || subParts[i] !== actualParts[i]) return false;
    }
    return actualParts.length === subParts.length;

`topicMatchesLoop actualParts remainingSubParts i` is that loop with the
remaining pattern segments made explicit; when the pattern is exhausted the
loop has consumed exactly `i` pattern segments, so the trailing length check
compares `actualParts.length` with `i`.
-/

def topicMatchesLoop (actualParts : List String) : List String → Nat → Bool
  | [], i => actualParts.length == i
  | sp :: rest, i =>
    if sp = "#" then true
    else if sp = "+" then topicMatchesLoop actualParts rest (i + 1)
    else if actualParts[i]? = some sp then topicMatchesLoop actualParts rest (i + 1)
    else false

def topicMatches (actualTopic subscriptionTopic : String) : Bool :=
  topicMatchesLoop (splitSlash actualTopic) (splitSlash subscriptionTopic) 0

/-! ### JSON payload values

Payloads reach the dispatcher as `JSON.parse` results (with a raw-string
fallback), so a payload value is a string, a number, a boolean, `null`, or an
object. Arrays do not occur in any payload the repository produces and are not
modelled. Object fields are kept in insertion order.
-/

inductive JsonVal where
  | str (s : String)
  | num (q : Rat)
  | jbool (b : Bool)
  | null
  | obj (fields : List (String × JsonVal))

/-- Model of `parsedMessage[key]` on a (non-null) object: the first binding of
the key, `none` when the key is absent (JavaScript `undefined`). -/
def getField (fields : List (String × JsonVal)) (k : String) : Option JsonVal :=
  match fields with
  | [] => none
  | (k', v) :: rest => if k' = k then some v else getField rest k

/-- Model of JavaScript strict equality `a === b` as the dispatcher filter uses
it: structural on primitives; two object values taken from different sources
(the parsed message field and the filter configuration) are never the same
reference, so strict equality on them is `false`. `none` stands for
`undefined`, which is `===` only to itself. -/
def jsStrictEq : Option JsonVal → Option JsonVal → Bool
  | some (.str a), some (.str b) => a = b
  | some (.num a), some (.num b) => a = b
  | some (.jbool a), some (.jbool b) => a = b
  | some .null, some .null => true
  | none, none => true
  | _, _ => false

/-- Model of JavaScript truthiness for a payload value. -/
def jsTruthy : JsonVal → Bool
  | .str s => s ≠ ""
  | .num q => q ≠ 0
  | .jbool b => b
  | .null => false
  | .obj _ => true

/-! ### Shared event store (shared-memory-tool.ts)

    const sensorMemoryStore: Array<{topic; data; timestamp; analysis}> = [];

`addSensorData` (lines 104-115) pushes an entry and then, when the length
exceeds 100, shifts off the single oldest entry. The `store` action of
`sharedMemoryTool.execute` (lines 40-50) performs the same push-then-evict on
the same array. The stored `timestamp` is the instant of the push.
-/

structure SensorEvent where
  topic : String
  data : JsonVal
  timestamp : Rat
  analysis : String

/-- Push one entry, then evict the oldest entry if the length exceeds 100:
the body shared by `addSensorData` and the `store` action of the tool. -/
def pushEvict (store : List SensorEvent) (e : SensorEvent) : List SensorEvent :=
  let s := store ++ [e]
  if s.length > 100 then s.drop 1 else s

/-- Model of `addSensorData(topic, data, analysis)` called at instant `now`. -/
def addSensorData (now : Rat) (store : List SensorEvent)
    (topic : String) (data : JsonVal) (analysis : String) : List SensorEvent :=
  pushEvict store ⟨topic, data, now, analysis⟩

/-! ### Subscriptions and the dispatcher (mqtt-subscribe.ts)

A subscription record `{topic, qos, filter?, paused?}`, keyed by its topic
pattern in an insertion-ordered map. `handleMessage(topic, message)` parses the
payload (JSON with raw-string fallback, modelled by taking the parse result as
the input value), then for every matching, non-paused subscription applies the
optional filter and forwards accepted messages to the shared event store.
-/

structure Subscription where
  topic : String
  qos : Nat
  filter : Option (List (String × JsonVal))
  paused : Bool

/-- Model of the property access `parsedMessage[key]` as the filter performs
it, on a value of JavaScript type `object` (the only values it is applied to,
by the `typeof` guard): on an object it yields the field or `undefined`
(`none`); on `null` it raises a TypeError, which the surrounding try/catch in
`handleMessage` swallows. The catch-all covers primitives, whose boxed forms
carry none of the filter keys. -/
def jsProp : JsonVal → String → Except Unit (Option JsonVal)
  | .obj fields, k => .ok (getField fields k)
  | .null, _ => .error ()
  | _, _ => .ok none

/-- Model of
`Object.entries(filter).every(([key, value]) => parsedMessage[key] === value)`
with the short-circuit of `Array.prototype.every` and the possibility of a
TypeError from the property access. -/
def evalFilter (parsed : JsonVal) : List (String × JsonVal) → Except Unit Bool
  | [] => .ok true
  | (k, v) :: rest =>
    match jsProp parsed k with
    | .error e => .error e
    | .ok pv => if jsStrictEq pv (some v) then evalFilter parsed rest else .ok false

/-- Model of `typeof parsedMessage === "object"` : true for objects and for
`null`. -/
def typeofIsObject : JsonVal → Bool
  | .obj _ => true
  | .null => true
  | _ => false

def fieldTruthy (fields : List (String × JsonVal)) (k : String) : Bool :=
  match getField fields k with
  | some v => jsTruthy v
  | none => false

/-- Model of `determineMessageType(topic, message)` (mqtt-subscribe.ts lines
320-373): first topic-keyword heuristics, then payload-field heuristics for
object payloads (the guard `typeof message === "object" && message` excludes
`null`), with `"other"` as the fallback. -/
def determineMessageType (topic : String) (message : JsonVal) : String :=
  let lowerTopic := strToLower topic
  if strIncludes lowerTopic "telemetry" || strIncludes lowerTopic "data" ||
      strIncludes lowerTopic "sensors" then "telemetry"
  else if strIncludes lowerTopic "status" || strIncludes lowerTopic "state" then "status"
  else if strIncludes lowerTopic "command" || strIncludes lowerTopic "control" then "command"
  else if strIncludes lowerTopic "alert" || strIncludes lowerTopic "alarm" ||
      strIncludes lowerTopic "error" then "alert"
  else
    match message with
    | .obj fields =>
      if fieldTruthy fields "temperature" || fieldTruthy fields "humidity" ||
          fieldTruthy fields "pressure" || fieldTruthy fields "sensor_data" then "telemetry"
      else if fieldTruthy fields "status" || fieldTruthy fields "state" ||
          (getField fields "online").isSome then "status"
      else if fieldTruthy fields "command" || fieldTruthy fields "action" ||
          fieldTruthy fields "control" then "command"
      else if fieldTruthy fields "alert" || fieldTruthy fields "alarm" ||
          fieldTruthy fields "error" || fieldTruthy fields "severity" then "alert"
      else "other"
    | _ => "other"

def isDeviceIdChar (c : Char) : Bool :=
  c.isAlphanum || c = '_' || c = '-'

/-- Model of the test `/^[a-zA-Z0-9_-]+$/.test(part) && part.length > 2`. -/
def looksLikeDeviceId (s : String) : Bool :=
  !s.toList.isEmpty && s.toList.all isDeviceIdChar && decide (2 < s.length)

/-- Model of `topic.replace(/[^a-zA-Z0-9]/g, "_")`. -/
def sanitizeTopicId (topic : String) : String :=
  String.mk (topic.toList.map (fun c => if c.isAlphanum then c else '_'))

/-- Shared fallback of `extractDeviceId` : `parts[0] || device_<sanitized>`
(the first split segment always exists but may be the empty string, which is
falsy). -/
def extractDeviceIdFallback (topic : String) (parts : List String) : String :=
  let p0 := parts.headD ""
  if p0 ≠ "" then p0 else "device_" ++ sanitizeTopicId topic

/-- Model of `extractDeviceId(topic)` (mqtt-subscribe.ts lines 289-315):
positional heuristics for `devices/...`, `sensors/...`, `home/...` topics, then
a scan for an alphanumeric token longer than two characters, then the
fallback. -/
def extractDeviceId (topic : String) : String :=
  let parts := splitSlash topic
  if parts.headD "" = "devices" && decide (2 ≤ parts.length) then parts.getD 1 ""
  else if parts.headD "" = "sensors" && decide (3 ≤ parts.length) then parts.getD 2 ""
  else if parts.headD "" = "home" && decide (4 ≤ parts.length) then parts.getD 3 ""
  else if 2 ≤ parts.length then
    match parts.find? looksLikeDeviceId with
    | some p => p
    | none => extractDeviceIdFallback topic parts
  else extractDeviceIdFallback topic parts

/-- The annotation string stored with every accepted message. -/
def mkAnalysis (topic : String) (parsed : JsonVal) : String :=
  "Received " ++ determineMessageType topic parsed ++ " message from " ++
    extractDeviceId topic

/-- The per-subscription body of `handleMessage` (mqtt-subscribe.ts lines
223-271). The source first filters the subscription list by `topicMatches` and
then runs the body on each match; folding with the match test inlined performs
the same per-subscription step. A paused subscription returns early; a
configured filter is evaluated only when the parsed payload has JavaScript
type `object`; a TypeError raised by the filter (null payload, non-empty
filter) is caught by the per-subscription try/catch and the message is skipped;
an accepted message is appended to the shared store via `addSensorData`. -/
def processOneSub (now : Rat) (topic : String) (parsed : JsonVal)
    (store : List SensorEvent) (sub : Subscription) : List SensorEvent :=
  if !topicMatches topic sub.topic then store
  else if sub.paused then store
  else
    match sub.filter with
    | some f =>
      if typeofIsObject parsed then
        match evalFilter parsed f with
        | .error _ => store
        | .ok false => store
        | .ok true => addSensorData now store topic parsed (mkAnalysis topic parsed)
      else addSensorData now store topic parsed (mkAnalysis topic parsed)
    | none => addSensorData now store topic parsed (mkAnalysis topic parsed)

/-- Model of `handleMessage(topic, message)` over the subscription list (in
map insertion order), threading the shared store through the per-subscription
steps. -/
def handleMessage (now : Rat) (subs : List Subscription) (topic : String)
    (parsed : JsonVal) (store : List SensorEvent) : List SensorEvent :=
  subs.foldl (processOneSub now topic parsed) store

/-! ### Temperature safety evaluator (feeder-control.ts, coopTempAlertTool)

Module state: `tempCache : Map<string, TempReading>` and `lastCallTime = 0`.
Constants: `STALE_DATA_THRESHOLD = 120000` ms, `RATE_LIMIT_INTERVAL = 5000` ms,
a 30000 ms cache window.
-/

structure TempReading where
  temperature : Rat
  timestamp : Rat
  source : String
deriving DecidableEq

structure EvalState where
  lastCallTime : Rat
  tempCache : List (String × TempReading)
deriving DecidableEq

/-- The module state at load: `let lastCallTime = 0` and an empty cache. -/
def initialEvalState : EvalState := ⟨0, []⟩

def lookupEntry {α : Type} : List (String × α) → String → Option α
  | [], _ => none
  | (k', v) :: rest, k => if k' = k then some v else lookupEntry rest k

/-- Model of `Map.set` : replace the binding in place when the key exists,
otherwise append. -/
def setEntry {α : Type} : List (String × α) → String → α → List (String × α)
  | [], k, v => [(k, v)]
  | (k', v') :: rest, k, v =>
    if k' = k then (k, v) :: rest else (k', v') :: setEntry rest k v

/-- Model of `entry.data.temperature` for the read path: the field on an
object payload, `undefined` on primitives. A stored literal-`null` payload
would make the JavaScript filter callback raise a TypeError instead; theorems
over arbitrary stores therefore assume no `null` payload (see C10). -/
def dataTempField (e : SensorEvent) : Option JsonVal :=
  match e.data with
  | .obj fields => getField fields "temperature"
  | _ => none

/-- The read-path filter
`entry.topic.includes("temp") && entry.data.temperature !== undefined`. -/
def isTempEvent (e : SensorEvent) : Bool :=
  strIncludes e.topic "temp" && (dataTempField e).isSome

/-- Numeric view of a temperature field. The JavaScript source copies the
untyped value as-is; a non-numeric temperature value is not meaningfully
modelled (theorems assume numeric temperature fields) and the catch-all exists
only to keep the extraction total. -/
def jsNumOf : Option JsonVal → Rat
  | some (.num q) => q
  | _ => 0

def laterOf (b e : SensorEvent) : SensorEvent :=
  if e.timestamp > b.timestamp then e else b

/-- First element of the stable descending sort by timestamp
(`.sort((a, b) => b.timestamp - a.timestamp)` followed by `[0]`): the earliest
entry carrying the maximal timestamp, computed by a left fold. -/
def mostRecent : List SensorEvent → Option SensorEvent
  | [] => none
  | e :: rest => some (rest.foldl laterOf e)

/-- Model of `fetchFromSharedMemory(coopId)` (feeder-control.ts lines 243-268):
filter the shared store to temperature-carrying events, take the most recent
by timestamp, build a reading tagged `mqtt-shared-memory`; `none` when no such
event exists. The `coopId` argument is unused by the source body. -/
def fetchFromSharedMemory (coopId : String) (store : List SensorEvent) :
    Option TempReading :=
  let tempReadings := store.filter isTempEvent
  match mostRecent tempReadings with
  | none => none
  | some latest => some ⟨jsNumOf (dataTempField latest), latest.timestamp, "mqtt-shared-memory"⟩

/-- Model of `generateSimulatedReading()` (lines 273-296): a diurnal base
temperature by the wall-clock hour plus bounded jitter, rounded to one decimal;
the two `Math.random()` draws are passed in as `r1`, `r2`. -/
def generateSimulatedReading (hour : Nat) (r1 r2 : Rat) (now : Rat) : TempReading :=
  let baseTemp : Rat :=
    if 6 ≤ hour ∧ hour < 10 then 65 + r1 * 10
    else if 10 ≤ hour ∧ hour < 16 then 75 + r1 * 15
    else if 16 ≤ hour ∧ hour < 20 then 70 + r1 * 10
    else 60 + r1 * 10
  let jittered := baseTemp + (r2 - 1/2) * 5
  ⟨((⌊jittered * 10 + 1/2⌋ : Int) : Rat) / 10, now, "simulated"⟩

/-- Model of `getLatestTemperature(coopId)` (lines 220-238): return the cached
per-coop reading when it is younger than 30 seconds, otherwise fetch from the
shared store with the synthetic reading `sim` as fallback
(`fetchFromSharedMemory(coopId) || generateSimulatedReading()`) and refresh the
cache entry. Returns the reading and the updated cache. -/
def getLatestTemperature (coopId : String) (store : List SensorEvent)
    (sim : TempReading) (cache : List (String × TempReading)) (now : Rat) :
    TempReading × List (String × TempReading) :=
  match lookupEntry cache coopId with
  | some cached =>
    if now - cached.timestamp < 30000 then (cached, cache)
    else
      let reading := (fetchFromSharedMemory coopId store).getD sim
      (reading, setEntry cache coopId reading)
  | none =>
    let reading := (fetchFromSharedMemory coopId store).getD sim
    (reading, setEntry cache coopId reading)

inductive TempStatus where
  | OK
  | LOW
  | HIGH
  | STALE
deriving DecidableEq

/-- The recommendation messages, one constructor per template string of the
source, carrying the interpolated quantities (`toFixed(1)` renders the carried
rational; `Math.floor(dataAge / 1000)` is the carried integer). -/
inductive TempMessage where
  | staleWarning (ageSeconds : Int)
  | lowAlert (diffBelow : Rat)
  | highAlert (diffAbove : Rat)
  | okOptimal
  | okSlightlyCool
  | okSlightlyWarm
deriving DecidableEq

structure TempAlertOutput where
  current : Rat
  status : TempStatus
  message : TempMessage
  timestamp : Rat
deriving DecidableEq

/-- The error the evaluator can throw: the rate-limit `Error` whose message
interpolates the remaining-wait hint
`Math.ceil((RATE_LIMIT_INTERVAL - (now - lastCallTime)) / 1000)` seconds. -/
inductive EvalError where
  | rateLimited (waitSeconds : Int)
deriving DecidableEq

/-- The classification block of `coopTempAlertTool.execute` (lines 163-206),
applied to the reading obtained from the read path: staleness first (age
strictly over two minutes), then the range checks (strict inequalities, so the
boundary values themselves fall into the in-range branch), then the in-range
sub-classification around the midpoint with threshold 5. -/
def classifyReading (minSafe maxSafe : Rat) (now : Rat) (reading : TempReading) :
    TempAlertOutput :=
  let dataAge := now - reading.timestamp
  if dataAge > 120000 then
    ⟨reading.temperature, .STALE, .staleWarning ⌊dataAge / 1000⌋, reading.timestamp⟩
  else if reading.temperature < minSafe then
    ⟨reading.temperature, .LOW, .lowAlert (minSafe - reading.temperature), reading.timestamp⟩
  else if reading.temperature > maxSafe then
    ⟨reading.temperature, .HIGH, .highAlert (reading.temperature - maxSafe), reading.timestamp⟩
  else
    let optimal := (minSafe + maxSafe) / 2
    let deviation := |reading.temperature - optimal|
    if deviation < 5 then ⟨reading.temperature, .OK, .okOptimal, reading.timestamp⟩
    else if reading.temperature < optimal then
      ⟨reading.temperature, .OK, .okSlightlyCool, reading.timestamp⟩
    else ⟨reading.temperature, .OK, .okSlightlyWarm, reading.timestamp⟩

/-- Model of `coopTempAlertTool.execute` (lines 138-215): the process-wide rate
limiter first (a rejected call throws before `lastCallTime` is touched), then
`lastCallTime := now`, then the read path, then classification. `store` is the
shared event store (read-only here) and `sim` the synthetic fallback
reading. -/
def coopTempAlertExecute (minSafe maxSafe : Rat) (coopId : String)
    (store : List SensorEvent) (sim : TempReading)
    (s : EvalState) (now : Rat) : Except EvalError TempAlertOutput × EvalState :=
  if now - s.lastCallTime < 5000 then
    (.error (.rateLimited ⌈(5000 - (now - s.lastCallTime)) / 1000⌉), s)
  else
    let rc := getLatestTemperature coopId store sim s.tempCache now
    (.ok (classifyReading minSafe maxSafe now rc.1), ⟨now, rc.2⟩)

/-! ### Feed scheduler (src/unnamed/part_002, feedScheduleTool)

Module state: `feedingRecords : Map<string, FeedingRecord>`,
`scheduledReminders : Map<string, Timeout>`, and the optional
`approvalCallback` (the Approval Gate collaborator; `null` until registered).
-/

structure FeedingRecord where
  lastFedAt : Rat
  nextFeedAt : Rat
  coopId : String
  intervalHours : Rat
deriving DecidableEq

/-- A map entry of `scheduledReminders` : the single-shot timer handle. A
cleared handle stays in the map until overwritten or deleted on firing, so the
entry carries an `active` flag (`clearTimeout` turns it off). -/
structure ReminderTimer where
  fireAt : Rat
  active : Bool
deriving DecidableEq

structure FeedState where
  feedingRecords : List (String × FeedingRecord)
  scheduledReminders : List (String × ReminderTimer)
deriving DecidableEq

/-- The payload of `requestApproval` : `{action, reason, coopId,
intervalHours}`; the `reason` string interpolates `intervalHours`, carried
here by the fields themselves. -/
structure ApprovalRequest where
  action : String
  coopId : String
  intervalHours : Rat

/-- The status-message templates of the scheduler (lines 78-91), one
constructor per template, carrying the interpolated quantities (`toFixed(1)`
renders the carried rational). -/
inductive FeedBase where
  | overdueAlert (hoursOverdue minsOverdue : Int)
  | dueNow (intervalHours : Rat)
  | prepareSoon (minsUntilNext : Int)
  | onSchedule (hoursUntilNext : Rat)
deriving DecidableEq

/-- The two possible message suffixes of the reminder block: the denial
notice appended on a gate denial, and the scheduled notice. -/
inductive FeedSuffix where
  | denialNotice
  | scheduledNotice
deriving DecidableEq

structure FeedOutput where
  lastFedAt : Rat
  nextAt : Rat
  due : Bool
  message : FeedBase × Option FeedSuffix
  reminderScheduled : Bool
deriving DecidableEq

/-- The `Error` values `feedScheduleTool.execute` can throw. The first three
are the validation failures; `approvalRequired` is the error `requestApproval`
throws when no gate callback is registered; `typeErrorNotAFunction` is the
TypeError raised by applying a non-function value. -/
inductive FeedError where
  | invalidInterval
  | invalidTimestamp
  | noFeedingHistory
  | approvalRequired
  | typeErrorNotAFunction (name : String)
deriving DecidableEq

/-- The tool input after schema defaulting: `lastFedAt` is the parse outcome
of the optional ISO string (`none` = omitted or empty, `some none` = a string
`new Date(...)` turns into an invalid instant, `some (some t)` = a string
parsing to instant `t` in ms); `intervalHours` defaults to 12,
`scheduleReminder` to `false`, `coopId` to `"main"`. -/
structure FeedInput where
  lastFedAt : Option (Option Rat)
  intervalHours : Rat
  scheduleReminder : Bool
  coopId : String

/-- Model of `clearTimeout` on the map entry for `coopId` : the handle, when
present, becomes inactive but stays in the map. -/
def cancelTimer (k : String) : List (String × ReminderTimer) → List (String × ReminderTimer)
  | [] => []
  | (k', t) :: rest =>
    if k' = k then (k', ⟨t.fireAt, false⟩) :: rest else (k', t) :: cancelTimer k rest

/-- Model of the module-level function `scheduleReminder(coopId, feedTime)`
(lines 130-151): clear any existing timer for the coop, then, when `feedTime`
is still in the future, arm a single-shot timer firing at `feedTime` (the
source clamps the delay to the maximum representable timeout; the firing
instant is modelled directly) and record it; when `feedTime` is already past,
return `false` without arming. Note this function is unreachable from
`execute`, whose local binding shadows it (see `feedScheduleExecute`). -/
def scheduleReminderTimer (now : Rat) (reminders : List (String × ReminderTimer))
    (coopId : String) (feedTime : Rat) : Bool × List (String × ReminderTimer) :=
  let reminders1 := cancelTimer coopId reminders
  let timeUntil := feedTime - now
  if timeUntil ≤ 0 then (false, reminders1)
  else (true, setEntry reminders1 coopId ⟨feedTime, true⟩)

/-- The status-message derivation (lines 74-91): overdue by more than 60
minutes, due within the last hour, due in under an hour, or on schedule. The
divisions quantify the carried message arguments
(`Math.floor((now - nextFeedAt) / 60000)` minutes overdue, split into hours
and minutes by integer division; `Math.ceil(hoursUntilNext * 60)` minutes
remaining). -/
def feedBaseOf (input : FeedInput) (record : FeedingRecord) (now : Rat) : FeedBase :=
  let isDue : Bool := decide (record.nextFeedAt ≤ now)
  let timeUntilNext := record.nextFeedAt - now
  let hoursUntilNext := max 0 (timeUntilNext / 3600000)
  if isDue then
    let overdueMins : Int := ⌊(now - record.nextFeedAt) / 60000⌋
    if overdueMins > 60 then .overdueAlert (overdueMins / 60) (overdueMins % 60)
    else .dueNow input.intervalHours
  else if hoursUntilNext < 1 then .prepareSoon ⌈hoursUntilNext * 60⌉
  else .onSchedule hoursUntilNext

/-- The part of `feedScheduleTool.execute` after the feeding record for the
call has been determined (lines 71-123): status and message derivation, then
the reminder block, then the structured result. In the reminder block the
name `scheduleReminder` resolves to the Boolean destructured from the input
(line 40), shadowing the module-level timer function; both call sites
`reminderScheduled = scheduleReminder(coopId, record.nextFeedAt)` (lines 108
and 112) therefore apply a Boolean and raise
`TypeError: scheduleReminder is not a function`, so the approved path and the
no-gate-needed path never arm a timer and fail instead. -/
def feedScheduleFinish (gate : Option (ApprovalRequest → Bool)) (input : FeedInput)
    (s : FeedState) (record : FeedingRecord) (now : Rat) :
    Except FeedError FeedOutput × FeedState :=
  let isDue : Bool := decide (record.nextFeedAt ≤ now)
  let base : FeedBase := feedBaseOf input record now
  let out0 : FeedOutput :=
    ⟨record.lastFedAt, record.nextFeedAt, isDue, (base, none), false⟩
  if input.scheduleReminder && !isDue then
    if input.intervalHours < 6 then
      match gate with
      | none => (.error .approvalRequired, s)
      | some g =>
        if g ⟨"schedule_reminder", input.coopId, input.intervalHours⟩ then
          (.error (.typeErrorNotAFunction "scheduleReminder"), s)
        else
          (.ok { out0 with message := (base, some .denialNotice) }, s)
    else
      (.error (.typeErrorNotAFunction "scheduleReminder"), s)
  else (.ok out0, s)

/-- Model of `feedScheduleTool.execute` (lines 39-125): validate
`intervalHours ∈ [1, 48]`; when `lastFedAt` is supplied parse it (an invalid
instant throws) and replace the coop record entirely with
`{lastFedAt, nextFeedAt = lastFedAt + intervalHours * 3600000}`; when omitted
and no record exists, throw; then derive status, message and the reminder
outcome via `feedScheduleFinish`. -/
def feedScheduleExecute (gate : Option (ApprovalRequest → Bool)) (input : FeedInput)
    (s : FeedState) (now : Rat) : Except FeedError FeedOutput × FeedState :=
  if input.intervalHours < 1 ∨ input.intervalHours > 48 then (.error .invalidInterval, s)
  else
    match input.lastFedAt, lookupEntry s.feedingRecords input.coopId with
    | some none, _ => (.error .invalidTimestamp, s)
    | some (some fedTime), _ =>
      let record : FeedingRecord :=
        ⟨fedTime, fedTime + input.intervalHours * 3600000, input.coopId, input.intervalHours⟩
      feedScheduleFinish gate input
        { feedingRecords := setEntry s.feedingRecords input.coopId record,
          scheduledReminders := s.scheduledReminders } record now
    | none, none => (.error .noFeedingHistory, s)
    | none, some record => feedScheduleFinish gate input s record now

/-! ### Claim-side definitions

Definitions used by theorem statements and by concrete witnesses: the filter
acceptance condition as claim C8 words it, and fixed concrete inputs.
-/

/-- The filter condition as claim C8 states it, taken from the claim wording
for comparison with the implementation: every filter field equals the
corresponding field of the parsed payload (a non-object payload has no
fields). -/
def specFilterAccepts (parsed : JsonVal) (f : List (String × JsonVal)) : Bool :=
  f.all fun kv =>
    jsStrictEq (match parsed with
                | .obj fields => getField fields kv.1
                | _ => none) (some kv.2)

def mkEvC3 (n : Nat) : SensorEvent :=
  ⟨"sensors/coop/temp", JsonVal.null, (n : Rat), ""⟩

def esC3 : List SensorEvent :=
  (List.range 101).map mkEvC3

def c10Store : List SensorEvent :=
  [⟨"sensors/coop/temp", JsonVal.obj [("temperature", JsonVal.num 72)], 1000, ""⟩,
   ⟨"sensors/barn/temp", JsonVal.obj [("temperature", JsonVal.num 80)], 2000, ""⟩,
   ⟨"sensors/coop/humidity", JsonVal.obj [("humidity", JsonVal.num 40)], 3000, ""⟩]

/-- A gate callback approving every request. -/
def approveAllGate : ApprovalRequest → Bool := fun _ => true

/-- A gate callback denying every request. -/
def denyAllGate : ApprovalRequest → Bool := fun _ => false

/-- A stored feeding record for coop `main` whose `nextFeedAt` (1000000 ms) is
in the future relative to the call instant 0 used by the C1 evaluation. -/
def c1Record : FeedingRecord := ⟨0, 1000000, "main", 4⟩

def c1State : FeedState := ⟨[("main", c1Record)], []⟩

/-- The C1 call: `lastFedAt` omitted (the stored record is reused),
`intervalHours = 4`, `scheduleReminder = true`, coop `main`. -/
def c1Input : FeedInput := ⟨none, 4, true, "main"⟩

/-- The C1 call on the no-gate path: `intervalHours = 12 ≥ 6`. -/
def c1InputLongInterval : FeedInput := ⟨none, 12, true, "main"⟩

/-- A subscription on topic `a/b` with the filter `{device: "x"}`. -/
def c8Sub : Subscription := ⟨"a/b", 1, some [("device", JsonVal.str "x")], false⟩

/-! ### Theorems for claim C2 -/

lemma topicMatchesLoop_no_hash (ps : List String) :
    ∀ (as_ : List String) (i : Nat), "#" ∉ ps →
      topicMatchesLoop as_ ps i = true → as_.length = i + ps.length := by
  induction ps with
  | nil =>
    intro as_ i _ hm
    have h : as_.length = i := by simpa [topicMatchesLoop] using hm
    simpa using h
  | cons sp rest ih =>
    intro as_ i hnot hm
    have hsp : sp ≠ "#" := fun h => hnot (h ▸ List.mem_cons_self _ _)
    have hrest : "#" ∉ rest := fun h => hnot (List.mem_cons_of_mem _ h)
    by_cases hplus : sp = "+"
    · rw [topicMatchesLoop, if_neg hsp, if_pos hplus] at hm
      have := ih as_ (i + 1) hrest hm
      simp only [List.length_cons]
      omega
    · by_cases hget : as_[i]? = some sp
      · rw [topicMatchesLoop, if_neg hsp, if_neg hplus, if_pos hget] at hm
        have := ih as_ (i + 1) hrest hm
        simp only [List.length_cons]
        omega
      · rw [topicMatchesLoop, if_neg hsp, if_neg hplus, if_neg hget] at hm
        simp at hm

/-- C2: on topic `a/b/c` the matcher accepts exactly the patterns `a/b/c`,
`a/+/c`, `a/#`, `#` among the listed candidates and rejects `a/b`, `a/b/c/d`
and `x/+/c`; a pattern not containing the multi-level wildcard `#` matches only
topics with exactly its number of segments; a `#` segment accepts the remaining
topic unconditionally; a `+` segment accepts whatever single segment sits at
its position and matching continues one segment further. -/
theorem C2_topic_matching :
    (topicMatches "a/b/c" "a/b/c" = true ∧ topicMatches "a/b/c" "a/+/c" = true ∧
     topicMatches "a/b/c" "a/#" = true ∧ topicMatches "a/b/c" "#" = true ∧
     topicMatches "a/b/c" "a/b" = false ∧ topicMatches "a/b/c" "a/b/c/d" = false ∧
     topicMatches "a/b/c" "x/+/c" = false) ∧
    (∀ topic pat, "#" ∉ splitSlash pat → topicMatches topic pat = true →
      (splitSlash topic).length = (splitSlash pat).length) ∧
    (∀ as_ rest i, topicMatchesLoop as_ ("#" :: rest) i = true) ∧
    (∀ as_ rest i, topicMatchesLoop as_ ("+" :: rest) i = topicMatchesLoop as_ rest (i + 1)) := by
  refine ⟨by decide, ?_, ?_, ?_⟩
  · intro topic pat hnot hm
    have := topicMatchesLoop_no_hash (splitSlash pat) (splitSlash topic) 0 hnot hm
    omega
  · intro as_ rest i
    simp [topicMatchesLoop]
  · intro as_ rest i
    simp [topicMatchesLoop]

/-- C2 witness: the general no-`#` clause of `C2_topic_matching` instantiated
at topic `a/b/c` and pattern `a/+/c`. -/
theorem C2_topic_matching_witness :
    (splitSlash "a/b/c").length = (splitSlash "a/+/c").length :=
  C2_topic_matching.2.1 "a/b/c" "a/+/c" (by decide) (by decide)

/-! ### Theorems for claim C3 -/

lemma pushEvict_length_le (acc : List SensorEvent) (e : SensorEvent)
    (h : acc.length ≤ 100) : (pushEvict acc e).length ≤ 100 := by
  simp only [pushEvict]
  by_cases hlen : (acc ++ [e]).length > 100
  · rw [if_pos hlen]
    simp only [List.length_drop, List.length_append, List.length_singleton]
    omega
  · rw [if_neg hlen]
    omega

lemma foldl_pushEvict_length_le (es : List SensorEvent) :
    ∀ acc : List SensorEvent, acc.length ≤ 100 →
      (es.foldl pushEvict acc).length ≤ 100 := by
  induction es with
  | nil => intro acc h; simpa using h
  | cons e rest ih =>
    intro acc h
    rw [List.foldl_cons]
    exact ih _ (pushEvict_length_le acc e h)

lemma foldl_pushEvict_no_evict (es : List SensorEvent) :
    ∀ acc : List SensorEvent, (acc ++ es).length ≤ 100 →
      es.foldl pushEvict acc = acc ++ es := by
  induction es with
  | nil => intro acc _; simp
  | cons e rest ih =>
    intro acc h
    have hlen : ¬ (acc ++ [e]).length > 100 := by
      simp only [List.length_append, List.length_cons, List.length_singleton,
        List.length_nil] at h ⊢
      omega
    rw [List.foldl_cons]
    have hstep : pushEvict acc e = acc ++ [e] := by
      simp only [pushEvict]
      rw [if_neg hlen]
    rw [hstep]
    have h' : (acc ++ [e] ++ rest).length ≤ 100 := by
      simpa [List.append_assoc] using h
    rw [ih _ h']
    simp [List.append_assoc]

/-- C3: folding any sequence of store operations from the empty store leaves at
most 100 events, and storing exactly 101 events leaves precisely the last 100
of them: the single oldest event is evicted and the surviving events keep their
insertion order. -/
theorem C3_store_eviction :
    (∀ es : List SensorEvent, (es.foldl pushEvict []).length ≤ 100) ∧
    (∀ es : List SensorEvent, es.length = 101 →
      es.foldl pushEvict [] = es.drop 1) := by
  constructor
  · intro es
    exact foldl_pushEvict_length_le es [] (by simp)
  · intro es h101
    have hne : es ≠ [] := by
      intro h
      rw [h] at h101
      simp at h101
    have hdec : es.dropLast ++ [es.getLast hne] = es := List.dropLast_append_getLast hne
    have hfront : es.dropLast.length = 100 := by
      rw [List.length_dropLast, h101]
    calc es.foldl pushEvict []
        = (es.dropLast ++ [es.getLast hne]).foldl pushEvict [] := by rw [hdec]
      _ = [es.getLast hne].foldl pushEvict (es.dropLast.foldl pushEvict []) := by
          rw [List.foldl_append]
      _ = pushEvict (es.dropLast.foldl pushEvict []) (es.getLast hne) := by
          rw [List.foldl_cons, List.foldl_nil]
      _ = pushEvict es.dropLast (es.getLast hne) := by
          rw [foldl_pushEvict_no_evict es.dropLast [] (by simp [hfront])]
          simp
      _ = (es.dropLast ++ [es.getLast hne]).drop 1 := by
          simp only [pushEvict]
          rw [if_pos (by simp [hfront])]
      _ = es.drop 1 := by rw [hdec]

/-! ### Theorems for claim C4 -/

lemma classifyReading_stale (minSafe maxSafe now : Rat) (r : TempReading)
    (h : now - r.timestamp > 120000) :
    (classifyReading minSafe maxSafe now r).status = TempStatus.STALE := by
  simp only [classifyReading]
  rw [if_pos h]

lemma classifyReading_low (minSafe maxSafe now : Rat) (r : TempReading)
    (hage : now - r.timestamp ≤ 120000) (hlow : r.temperature < minSafe) :
    (classifyReading minSafe maxSafe now r).status = TempStatus.LOW := by
  simp only [classifyReading]
  rw [if_neg (not_lt.mpr hage), if_pos hlow]

lemma classifyReading_high (minSafe maxSafe now : Rat) (r : TempReading)
    (hrange : minSafe ≤ maxSafe) (hage : now - r.timestamp ≤ 120000)
    (hhigh : r.temperature > maxSafe) :
    (classifyReading minSafe maxSafe now r).status = TempStatus.HIGH := by
  have hnl : ¬ (r.temperature < minSafe) := not_lt.mpr (le_of_lt (lt_of_le_of_lt hrange hhigh))
  simp only [classifyReading]
  rw [if_neg (not_lt.mpr hage), if_neg hnl, if_pos hhigh]

lemma classifyReading_ok (minSafe maxSafe now : Rat) (r : TempReading)
    (hage : now - r.timestamp ≤ 120000) (hmin : minSafe ≤ r.temperature)
    (hmax : r.temperature ≤ maxSafe) :
    (classifyReading minSafe maxSafe now r).status = TempStatus.OK := by
  simp only [classifyReading]
  rw [if_neg (not_lt.mpr hage), if_neg (not_lt.mpr hmin), if_neg (not_lt.mpr hmax)]
  by_cases hdev : |r.temperature - (minSafe + maxSafe) / 2| < 5
  · rw [if_pos hdev]
  · rw [if_neg hdev]
    by_cases hcool : r.temperature < (minSafe + maxSafe) / 2
    · rw [if_pos hcool]
    · rw [if_neg hcool]

/-- C4: a reading older than two minutes is classified `STALE` regardless of
its value; a fresh reading strictly below `minSafe` is `LOW`, strictly above
`maxSafe` is `HIGH`, and a reading inside the closed range (the boundary
values included) is `OK`. Concretely with `minSafe = 35`, `maxSafe = 95` : a
fresh reading of 98 is `HIGH`, a reading of exactly 95 is `OK`, and a reading
aged 150 seconds is `STALE` whatever its value. -/
theorem C4_temperature_classification :
    (∀ (minSafe maxSafe now : Rat) (r : TempReading),
      (now - r.timestamp > 120000 →
        (classifyReading minSafe maxSafe now r).status = TempStatus.STALE) ∧
      (minSafe ≤ maxSafe → now - r.timestamp ≤ 120000 →
        (r.temperature < minSafe →
          (classifyReading minSafe maxSafe now r).status = TempStatus.LOW) ∧
        (r.temperature > maxSafe →
          (classifyReading minSafe maxSafe now r).status = TempStatus.HIGH) ∧
        (minSafe ≤ r.temperature → r.temperature ≤ maxSafe →
          (classifyReading minSafe maxSafe now r).status = TempStatus.OK))) ∧
    (∀ now : Rat, (classifyReading 35 95 now ⟨98, now, "s"⟩).status = TempStatus.HIGH) ∧
    (∀ now : Rat, (classifyReading 35 95 now ⟨95, now, "s"⟩).status = TempStatus.OK) ∧
    (∀ (now t : Rat) (src : String),
      (classifyReading 35 95 now ⟨t, now - 150000, src⟩).status = TempStatus.STALE) := by
  refine ⟨?_, ?_, ?_, ?_⟩
  · intro minSafe maxSafe now r
    refine ⟨classifyReading_stale minSafe maxSafe now r, ?_⟩
    intro hrange hage
    exact ⟨classifyReading_low minSafe maxSafe now r hage,
      classifyReading_high minSafe maxSafe now r hrange hage,
      classifyReading_ok minSafe maxSafe now r hage⟩
  · intro now
    exact classifyReading_high 35 95 now ⟨98, now, "s"⟩ (by norm_num)
      (by simp) (by norm_num)
  · intro now
    exact classifyReading_ok 35 95 now ⟨95, now, "s"⟩ (by simp)
      (by norm_num) (by norm_num)
  · intro now t src
    exact classifyReading_stale 35 95 now ⟨t, now - 150000, src⟩ (by simp; norm_num)

/-- C4 witness: the general clauses of `C4_temperature_classification`
instantiated at a reading of 20 aged zero against the default range. -/
theorem C4_temperature_classification_witness :
    (classifyReading 35 95 1000 ⟨20, 1000, "s"⟩).status = TempStatus.LOW :=
  ((C4_temperature_classification.1 35 95 1000 ⟨20, 1000, "s"⟩).2
    (by norm_num) (by norm_num)).1 (by norm_num)

/-! ### Theorems for claims C5 and C9 -/

/-- C5: from the initial module state, a first `checkSafety` call at any
realistic clock value succeeds; a second call for any coop strictly less than
5000 ms later fails with the rate-limit error carrying the remaining-wait
hint; a second call 5000 ms or more later succeeds as well. The limiter is
keyed by nothing: the two calls may name different coops. -/
theorem C5_rate_limit_process_wide :
    ∀ (c1 c2 : String) (minS maxS : Rat) (store : List SensorEvent)
      (sim : TempReading) (now1 now2 : Rat),
      5000 ≤ now1 →
      (∃ out, (coopTempAlertExecute minS maxS c1 store sim initialEvalState now1).1 =
        Except.ok out) ∧
      (now2 - now1 < 5000 →
        (coopTempAlertExecute minS maxS c2 store sim
          (coopTempAlertExecute minS maxS c1 store sim initialEvalState now1).2 now2).1 =
        Except.error (EvalError.rateLimited ⌈(5000 - (now2 - now1)) / 1000⌉)) ∧
      (5000 ≤ now2 - now1 →
        ∃ out, (coopTempAlertExecute minS maxS c2 store sim
          (coopTempAlertExecute minS maxS c1 store sim initialEvalState now1).2 now2).1 =
        Except.ok out) := by
  intro c1 c2 minS maxS store sim now1 now2 h1
  have hcond1 : ¬ (now1 - initialEvalState.lastCallTime < 5000) := by
    simp only [initialEvalState]
    rw [sub_zero]
    exact not_lt.mpr h1
  have hfst : coopTempAlertExecute minS maxS c1 store sim initialEvalState now1 =
      (Except.ok (classifyReading minS maxS now1
          (getLatestTemperature c1 store sim initialEvalState.tempCache now1).1),
        ⟨now1, (getLatestTemperature c1 store sim initialEvalState.tempCache now1).2⟩) := by
    simp only [coopTempAlertExecute]
    rw [if_neg hcond1]
  refine ⟨⟨_, by rw [hfst]⟩, ?_, ?_⟩
  · intro h2
    rw [hfst]
    simp only [coopTempAlertExecute]
    rw [if_pos h2]
  · intro h2
    rw [hfst]
    simp only [coopTempAlertExecute]
    rw [if_neg (not_lt.mpr h2)]
    exact ⟨_, rfl⟩

/-- C5 witness: the three clauses of `C5_rate_limit_process_wide` at
concrete instants 6000, 9000 (rejected) and with 11000 in place of 9000
(accepted). -/
theorem C5_rate_limit_process_wide_witness :
    ((coopTempAlertExecute 35 95 "b" [] ⟨70, 6000, "s"⟩
        (coopTempAlertExecute 35 95 "a" [] ⟨70, 6000, "s"⟩ initialEvalState 6000).2 9000).1 =
      Except.error (EvalError.rateLimited ⌈(5000 - ((9000 : Rat) - 6000)) / 1000⌉)) ∧
    (∃ out, (coopTempAlertExecute 35 95 "b" [] ⟨70, 6000, "s"⟩
        (coopTempAlertExecute 35 95 "a" [] ⟨70, 6000, "s"⟩ initialEvalState 6000).2 11000).1 =
      Except.ok out) :=
  ⟨((C5_rate_limit_process_wide "a" "b" 35 95 [] ⟨70, 6000, "s"⟩ 6000 9000
      (by norm_num)).2.1 (by norm_num)),
   ((C5_rate_limit_process_wide "a" "b" 35 95 [] ⟨70, 6000, "s"⟩ 6000 11000
      (by norm_num)).2.2 (by norm_num))⟩

/-- C9: a rate-limited call is rejected before `lastCallTime` is assigned, so
it returns the rate-limit error (with its remaining-wait hint measured from
the last accepted call) and leaves the evaluator state exactly as it was; a
later call made 5000 ms or more after the last accepted call therefore
succeeds no matter how many rejected attempts happened in between. -/
theorem C9_rejected_call_leaves_limiter :
    ∀ (minS maxS : Rat) (c : String) (store : List SensorEvent) (sim : TempReading)
      (s : EvalState) (now : Rat),
      now - s.lastCallTime < 5000 →
      coopTempAlertExecute minS maxS c store sim s now =
        (Except.error (EvalError.rateLimited ⌈(5000 - (now - s.lastCallTime)) / 1000⌉), s) ∧
      (∀ now' : Rat, 5000 ≤ now' - s.lastCallTime →
        ∃ out, (coopTempAlertExecute minS maxS c store sim s now').1 = Except.ok out) := by
  intro minS maxS c store sim s now h
  constructor
  · simp only [coopTempAlertExecute]
    rw [if_pos h]
  · intro now' h'
    simp only [coopTempAlertExecute]
    rw [if_neg (not_lt.mpr h')]
    exact ⟨_, rfl⟩

/-- C9 witness: `C9_rejected_call_leaves_limiter` at a concrete state whose
last accepted call was at 10000, rejected retry at 12000, accepted call at
16000. -/
theorem C9_rejected_call_leaves_limiter_witness :
    coopTempAlertExecute 35 95 "main" [] ⟨70, 10000, "s"⟩ ⟨10000, []⟩ 12000 =
      (Except.error (EvalError.rateLimited ⌈(5000 - ((12000 : Rat) - 10000)) / 1000⌉),
        (⟨10000, []⟩ : EvalState)) ∧
    ∃ out, (coopTempAlertExecute 35 95 "main" [] ⟨70, 10000, "s"⟩ ⟨10000, []⟩ 16000).1 =
      Except.ok out := by
  have h := C9_rejected_call_leaves_limiter 35 95 "main" [] ⟨70, 10000, "s"⟩
    ⟨10000, []⟩ 12000 (by norm_num)
  exact ⟨h.1, h.2 16000 (by norm_num)⟩

/-! ### Theorems for claim C10 -/

lemma laterOf_left_le (b e : SensorEvent) : b.timestamp ≤ (laterOf b e).timestamp := by
  simp only [laterOf]
  by_cases h : e.timestamp > b.timestamp
  · rw [if_pos h]; exact le_of_lt h
  · rw [if_neg h]

lemma laterOf_right_le (b e : SensorEvent) : e.timestamp ≤ (laterOf b e).timestamp := by
  simp only [laterOf]
  by_cases h : e.timestamp > b.timestamp
  · rw [if_pos h]
  · rw [if_neg h]; exact not_lt.mp h

lemma laterOf_mem (b e : SensorEvent) : laterOf b e = b ∨ laterOf b e = e := by
  simp only [laterOf]
  by_cases h : e.timestamp > b.timestamp
  · rw [if_pos h]; exact Or.inr rfl
  · rw [if_neg h]; exact Or.inl rfl

lemma foldl_laterOf_spec (l : List SensorEvent) :
    ∀ b : SensorEvent, (l.foldl laterOf b = b ∨ l.foldl laterOf b ∈ l) ∧
      b.timestamp ≤ (l.foldl laterOf b).timestamp ∧
      ∀ e ∈ l, e.timestamp ≤ (l.foldl laterOf b).timestamp := by
  induction l with
  | nil =>
    intro b
    exact ⟨Or.inl rfl, le_refl _, by intro e he; cases he⟩
  | cons x rest ih =>
    intro b
    rw [List.foldl_cons]
    obtain ⟨hmem, hble, hall⟩ := ih (laterOf b x)
    refine ⟨?_, ?_, ?_⟩
    · rcases hmem with h | h
      · rcases laterOf_mem b x with h2 | h2
        · exact Or.inl (h.trans h2)
        · exact Or.inr (by rw [h, h2]; exact List.mem_cons_self x rest)
      · exact Or.inr (List.mem_cons_of_mem x h)
    · exact le_trans (laterOf_left_le b x) hble
    · intro e he
      rcases List.mem_cons.mp he with h | h
      · rw [h]; exact le_trans (laterOf_right_le b x) hble
      · exact hall e h


lemma mostRecent_spec (l : List SensorEvent) (hne : l ≠ []) :
    ∃ e, mostRecent l = some e ∧ e ∈ l ∧ ∀ e' ∈ l, e'.timestamp ≤ e.timestamp := by
  match l, hne with
  | x :: rest, _ =>
    obtain ⟨hmem, hxle, hall⟩ := foldl_laterOf_spec rest x
    refine ⟨rest.foldl laterOf x, rfl, ?_, ?_⟩
    · rcases hmem with h | h
      · rw [h]; exact List.mem_cons_self x rest
      · exact List.mem_cons_of_mem x h
    · intro e' he'
      rcases List.mem_cons.mp he' with h | h
      · rw [h]; exact hxle
      · exact hall e' h

/-- C10: the store read path ignores its `coopId` argument entirely: any two
coop identifiers fetch the same reading; on a cache miss the reading returned
is built from the most recent event of the whole store whose topic contains
`temp` and whose payload carries a temperature field; only the 30-second cache
lookup is keyed by `coopId`. The wellformedness hypothesis excludes stores
with a literal-`null` payload, on which the JavaScript filter callback would
raise a TypeError instead of selecting. -/
theorem C10_read_path_ignores_coop :
    (∀ (c1 c2 : String) (store : List SensorEvent),
      fetchFromSharedMemory c1 store = fetchFromSharedMemory c2 store) ∧
    (∀ (c : String) (store : List SensorEvent) (sim : TempReading)
        (cache : List (String × TempReading)) (now : Rat),
      (∀ e ∈ store, e.data ≠ JsonVal.null) →
      lookupEntry cache c = none →
      store.filter isTempEvent ≠ [] →
      ∃ e, e ∈ store.filter isTempEvent ∧
        (getLatestTemperature c store sim cache now).1 =
          ⟨jsNumOf (dataTempField e), e.timestamp, "mqtt-shared-memory"⟩ ∧
        ∀ e' ∈ store.filter isTempEvent, e'.timestamp ≤ e.timestamp) ∧
    (∀ (c : String) (store : List SensorEvent) (sim : TempReading)
        (cache : List (String × TempReading)) (now : Rat) (r : TempReading),
      lookupEntry cache c = some r → now - r.timestamp < 30000 →
      getLatestTemperature c store sim cache now = (r, cache)) := by
  refine ⟨?_, ?_, ?_⟩
  · intro c1 c2 store
    rfl
  · intro c store sim cache now _ hmiss hne
    obtain ⟨e, hmr, hmem, hall⟩ := mostRecent_spec (store.filter isTempEvent) hne
    have hfetch : fetchFromSharedMemory c store =
        some ⟨jsNumOf (dataTempField e), e.timestamp, "mqtt-shared-memory"⟩ := by
      simp only [fetchFromSharedMemory]
      rw [hmr]
    refine ⟨e, hmem, ?_, hall⟩
    simp only [getLatestTemperature]
    rw [hmiss, hfetch]
    rfl
  · intro c store sim cache now r hhit hfresh
    simp only [getLatestTemperature]
    rw [hhit]
    simp only [if_pos hfresh]

/-- C10 witness: the cache-miss clause of `C10_read_path_ignores_coop` at a
concrete store, asked for a coop identifier that no stored event mentions. -/
theorem C10_read_path_ignores_coop_witness :
    ∃ e, e ∈ c10Store.filter isTempEvent ∧
      (getLatestTemperature "some-other-coop" c10Store ⟨70, 0, "s"⟩ [] 5000).1 =
        ⟨jsNumOf (dataTempField e), e.timestamp, "mqtt-shared-memory"⟩ ∧
      ∀ e' ∈ c10Store.filter isTempEvent, e'.timestamp ≤ e.timestamp :=
  C10_read_path_ignores_coop.2.1 "some-other-coop" c10Store ⟨70, 0, "s"⟩ [] 5000
    (by intro e he; fin_cases he <;> simp [c10Store])
    rfl
    (by
      intro h
      have hlen : (c10Store.filter isTempEvent).length = 2 := rfl
      rw [h] at hlen
      simp at hlen)

/-- C3 witness: a concrete sequence of 101 stored events, evaluated through the
second clause of `C3_store_eviction`. -/
theorem C3_store_eviction_witness :
    esC3.length = 101 ∧ esC3.foldl pushEvict [] = esC3.drop 1 :=
  ⟨by simp [esC3], C3_store_eviction.2 esC3 (by simp [esC3])⟩

/-! ### Theorems for claims C6, C7 and C1 -/

lemma lookupEntry_setEntry {α : Type} (l : List (String × α)) (k : String) (v : α) :
    lookupEntry (setEntry l k v) k = some v := by
  induction l with
  | nil => simp [setEntry, lookupEntry]
  | cons kv rest ih =>
    obtain ⟨k', v'⟩ := kv
    simp only [setEntry]
    by_cases h : k' = k
    · rw [if_pos h]
      simp [lookupEntry]
    · rw [if_neg h]
      simp only [lookupEntry]
      rw [if_neg h]
      exact ih

lemma feedScheduleFinish_no_reminder (gate : Option (ApprovalRequest → Bool))
    (input : FeedInput) (s : FeedState) (record : FeedingRecord) (now : Rat)
    (h : input.scheduleReminder = false) :
    feedScheduleFinish gate input s record now =
      (Except.ok ⟨record.lastFedAt, record.nextFeedAt, decide (record.nextFeedAt ≤ now),
        (feedBaseOf input record now, none), false⟩, s) := by
  simp [feedScheduleFinish, h]

lemma feedScheduleExecute_with_timestamp (gate : Option (ApprovalRequest → Bool))
    (s : FeedState) (now t iv : Rat) (sr : Bool) (c : String)
    (h1 : 1 ≤ iv) (h48 : iv ≤ 48) :
    feedScheduleExecute gate ⟨some (some t), iv, sr, c⟩ s now =
      feedScheduleFinish gate ⟨some (some t), iv, sr, c⟩
        ⟨setEntry s.feedingRecords c ⟨t, t + iv * 3600000, c, iv⟩, s.scheduledReminders⟩
        ⟨t, t + iv * 3600000, c, iv⟩ now := by
  have hneg : ¬ ((iv : Rat) < 1 ∨ iv > 48) := by
    push_neg
    exact ⟨h1, h48⟩
  simp only [feedScheduleExecute]
  rw [if_neg hneg]

lemma feedScheduleExecute_reuse (gate : Option (ApprovalRequest → Bool))
    (s : FeedState) (now iv : Rat) (sr : Bool) (c : String) (record : FeedingRecord)
    (h1 : 1 ≤ iv) (h48 : iv ≤ 48)
    (hrec : lookupEntry s.feedingRecords c = some record) :
    feedScheduleExecute gate ⟨none, iv, sr, c⟩ s now =
      feedScheduleFinish gate ⟨none, iv, sr, c⟩ s record now := by
  have hneg : ¬ ((iv : Rat) < 1 ∨ iv > 48) := by
    push_neg
    exact ⟨h1, h48⟩
  simp only [feedScheduleExecute]
  rw [if_neg hneg, hrec]

/-- C6: a report carrying a parsed `lastFedAt` and an interval in range
replaces the coop record entirely with
`{lastFedAt, nextFeedAt = lastFedAt + intervalHours * 3600000}` and echoes the
record in the structured result; a subsequent report omitting `lastFedAt`
leaves the stored record (and the whole scheduler state) unchanged and answers
from it. Concretely, reporting `lastFedAt = 2024-01-15T00:00:00Z`
(1705276800000 ms) with `intervalHours = 12` stores
`nextFeedAt = 2024-01-15T12:00:00Z` (1705320000000 ms). -/
theorem C6_feed_record_replacement :
    (∀ (gate : Option (ApprovalRequest → Bool)) (s : FeedState) (now t iv : Rat)
        (c : String), 1 ≤ iv → iv ≤ 48 →
      lookupEntry (feedScheduleExecute gate ⟨some (some t), iv, false, c⟩ s now).2.feedingRecords
          c = some ⟨t, t + iv * 3600000, c, iv⟩ ∧
      ∃ out, (feedScheduleExecute gate ⟨some (some t), iv, false, c⟩ s now).1 = Except.ok out ∧
        out.lastFedAt = t ∧ out.nextAt = t + iv * 3600000) ∧
    (∀ (gate : Option (ApprovalRequest → Bool)) (s : FeedState) (now iv : Rat)
        (c : String) (record : FeedingRecord),
      1 ≤ iv → iv ≤ 48 → lookupEntry s.feedingRecords c = some record →
      (feedScheduleExecute gate ⟨none, iv, false, c⟩ s now).2 = s ∧
      ∃ out, (feedScheduleExecute gate ⟨none, iv, false, c⟩ s now).1 = Except.ok out ∧
        out.lastFedAt = record.lastFedAt ∧ out.nextAt = record.nextFeedAt) ∧
    lookupEntry (feedScheduleExecute none
        ⟨some (some 1705276800000), 12, false, "main"⟩ ⟨[], []⟩ 1705300000000).2.feedingRecords
        "main" = some ⟨1705276800000, 1705320000000, "main", 12⟩ := by
  have hstore : ∀ (gate : Option (ApprovalRequest → Bool)) (s : FeedState) (now t iv : Rat)
      (c : String), 1 ≤ iv → iv ≤ 48 →
      lookupEntry (feedScheduleExecute gate ⟨some (some t), iv, false, c⟩ s now).2.feedingRecords
          c = some ⟨t, t + iv * 3600000, c, iv⟩ ∧
      ∃ out, (feedScheduleExecute gate ⟨some (some t), iv, false, c⟩ s now).1 = Except.ok out ∧
        out.lastFedAt = t ∧ out.nextAt = t + iv * 3600000 := by
    intro gate s now t iv c h1 h48
    rw [feedScheduleExecute_with_timestamp gate s now t iv false c h1 h48,
      feedScheduleFinish_no_reminder _ _ _ _ _ rfl]
    exact ⟨lookupEntry_setEntry _ _ _, _, rfl, rfl, rfl⟩
  refine ⟨hstore, ?_, ?_⟩
  · intro gate s now iv c record h1 h48 hrec
    rw [feedScheduleExecute_reuse gate s now iv false c record h1 h48 hrec,
      feedScheduleFinish_no_reminder _ _ _ _ _ rfl]
    exact ⟨rfl, _, rfl, rfl, rfl⟩
  · have h := hstore none ⟨[], []⟩ 1705300000000 1705276800000 12 "main"
      (by norm_num) (by norm_num)
    have harith : (1705276800000 : Rat) + 12 * 3600000 = 1705320000000 := by norm_num
    rw [harith] at h
    exact h.1

/-- C6 witness: the reuse clause of `C6_feed_record_replacement` applied to
the state produced by the concrete store of its third clause. -/
theorem C6_feed_record_replacement_witness :
    (feedScheduleExecute none ⟨none, 12, false, "main"⟩
      ⟨[("main", ⟨1705276800000, 1705320000000, "main", 12⟩)], []⟩ 1705300000000).2 =
      ⟨[("main", ⟨1705276800000, 1705320000000, "main", 12⟩)], []⟩ ∧
    ∃ out, (feedScheduleExecute none ⟨none, 12, false, "main"⟩
        ⟨[("main", ⟨1705276800000, 1705320000000, "main", 12⟩)], []⟩ 1705300000000).1 =
        Except.ok out ∧
      out.lastFedAt = (⟨1705276800000, 1705320000000, "main", 12⟩ : FeedingRecord).lastFedAt ∧
      out.nextAt = (⟨1705276800000, 1705320000000, "main", 12⟩ : FeedingRecord).nextFeedAt :=
  C6_feed_record_replacement.2.1 none
    ⟨[("main", ⟨1705276800000, 1705320000000, "main", 12⟩)], []⟩ 1705300000000 12 "main"
    ⟨1705276800000, 1705320000000, "main", 12⟩ (by norm_num) (by norm_num) rfl

/-- C7: the three validation failures of `report` are structured error
results leaving the scheduler state untouched: an interval outside `[1, 48]`
fails with the invalid-interval error; an unparsable supplied `lastFedAt`
fails with the invalid-timestamp error; an omitted `lastFedAt` with no stored
record fails with the no-feeding-history error. Each is an `Except.error`
value of the embedded execution, the typed result channel standing for a
thrown-and-reported tool error, never an unrecoverable fault. -/
theorem C7_validation_failures :
    (∀ (gate : Option (ApprovalRequest → Bool)) (input : FeedInput) (s : FeedState)
        (now : Rat), input.intervalHours < 1 ∨ input.intervalHours > 48 →
      feedScheduleExecute gate input s now = (Except.error FeedError.invalidInterval, s)) ∧
    (∀ (gate : Option (ApprovalRequest → Bool)) (iv : Rat) (sr : Bool) (c : String)
        (s : FeedState) (now : Rat), 1 ≤ iv → iv ≤ 48 →
      feedScheduleExecute gate ⟨some none, iv, sr, c⟩ s now =
        (Except.error FeedError.invalidTimestamp, s)) ∧
    (∀ (gate : Option (ApprovalRequest → Bool)) (iv : Rat) (sr : Bool) (c : String)
        (s : FeedState) (now : Rat), 1 ≤ iv → iv ≤ 48 →
      lookupEntry s.feedingRecords c = none →
      feedScheduleExecute gate ⟨none, iv, sr, c⟩ s now =
        (Except.error FeedError.noFeedingHistory, s)) := by
  refine ⟨?_, ?_, ?_⟩
  · intro gate input s now h
    simp only [feedScheduleExecute]
    rw [if_pos h]
  · intro gate iv sr c s now h1 h48
    have hneg : ¬ ((iv : Rat) < 1 ∨ iv > 48) := by
      push_neg
      exact ⟨h1, h48⟩
    simp only [feedScheduleExecute]
    rw [if_neg hneg]
  · intro gate iv sr c s now h1 h48 hrec
    have hneg : ¬ ((iv : Rat) < 1 ∨ iv > 48) := by
      push_neg
      exact ⟨h1, h48⟩
    simp only [feedScheduleExecute]
    rw [if_neg hneg, hrec]

/-- C7 witness: the three clauses of `C7_validation_failures` at concrete
inputs (interval 49; an unparsable timestamp; an empty record store). -/
theorem C7_validation_failures_witness :
    feedScheduleExecute none ⟨some (some 0), 49, false, "main"⟩ ⟨[], []⟩ 0 =
      (Except.error FeedError.invalidInterval, (⟨[], []⟩ : FeedState)) ∧
    feedScheduleExecute none ⟨some none, 12, false, "main"⟩ ⟨[], []⟩ 0 =
      (Except.error FeedError.invalidTimestamp, (⟨[], []⟩ : FeedState)) ∧
    feedScheduleExecute none ⟨none, 12, false, "main"⟩ ⟨[], []⟩ 0 =
      (Except.error FeedError.noFeedingHistory, (⟨[], []⟩ : FeedState)) :=
  ⟨C7_validation_failures.1 none ⟨some (some 0), 49, false, "main"⟩ ⟨[], []⟩ 0
      (Or.inr (by norm_num)),
   C7_validation_failures.2.1 none 12 false "main" ⟨[], []⟩ 0 (by norm_num) (by norm_num),
   C7_validation_failures.2.2 none 12 false "main" ⟨[], []⟩ 0 (by norm_num) (by norm_num) rfl⟩

/-- C1: with a stored record for coop `main` whose `nextFeedAt` is in the
future, a report with `intervalHours = 4` and `scheduleReminder = true` under
an approving gate does not arm a timer and set `reminderScheduled = true` as
the claim requires: it fails with the TypeError raised by applying the
shadowed name `scheduleReminder` (first clause); the same TypeError hits the
no-gate path `intervalHours = 12 ≥ 6` (second clause). The denial side of the
claim does hold: under a denying gate the call returns
`reminderScheduled = false` with the denial notice appended and no timer
armed (third and fifth clauses), and with no registered gate the approval
request itself is the failure (fourth clause). -/
theorem C1_reminder_arming_type_error :
    feedScheduleExecute (some approveAllGate) c1Input c1State 0 =
      (Except.error (FeedError.typeErrorNotAFunction "scheduleReminder"), c1State) ∧
    feedScheduleExecute none c1InputLongInterval c1State 0 =
      (Except.error (FeedError.typeErrorNotAFunction "scheduleReminder"), c1State) ∧
    feedScheduleExecute (some denyAllGate) c1Input c1State 0 =
      (Except.ok ⟨0, 1000000, false,
        (FeedBase.prepareSoon 17, some FeedSuffix.denialNotice), false⟩, c1State) ∧
    feedScheduleExecute none c1Input c1State 0 =
      (Except.error FeedError.approvalRequired, c1State) ∧
    c1State.scheduledReminders = [] := by
  have hrec : lookupEntry c1State.feedingRecords "main" = some c1Record := rfl
  have hdue : decide ((1000000 : Rat) ≤ 0) = false := by
    simp only [decide_eq_false_iff_not]
    norm_num
  have hbase : feedBaseOf ⟨none, 4, true, "main"⟩ ⟨0, 1000000, "main", 4⟩ 0 =
      FeedBase.prepareSoon 17 := by
    simp only [feedBaseOf, hdue]
    norm_num
    rw [Int.ceil_eq_iff]
    constructor <;> norm_num
  refine ⟨?_, ?_, ?_, ?_, rfl⟩
  · rw [show c1Input = (⟨none, 4, true, "main"⟩ : FeedInput) from rfl,
      feedScheduleExecute_reuse (some approveAllGate) c1State 0 4 true "main" c1Record
        (by norm_num) (by norm_num) hrec]
    simp only [feedScheduleFinish, c1Record, hdue, approveAllGate]
    norm_num
  · rw [show c1InputLongInterval = (⟨none, 12, true, "main"⟩ : FeedInput) from rfl,
      feedScheduleExecute_reuse none c1State 0 12 true "main" c1Record
        (by norm_num) (by norm_num) hrec]
    simp only [feedScheduleFinish, c1Record, hdue]
    norm_num
  · rw [show c1Input = (⟨none, 4, true, "main"⟩ : FeedInput) from rfl,
      feedScheduleExecute_reuse (some denyAllGate) c1State 0 4 true "main" c1Record
        (by norm_num) (by norm_num) hrec]
    simp only [feedScheduleFinish, c1Record, hdue, denyAllGate, hbase]
    norm_num
  · rw [show c1Input = (⟨none, 4, true, "main"⟩ : FeedInput) from rfl,
      feedScheduleExecute_reuse none c1State 0 4 true "main" c1Record
        (by norm_num) (by norm_num) hrec]
    simp only [feedScheduleFinish, c1Record, hdue]
    norm_num

/-! ### Theorems for claim C8 -/

lemma evalFilter_obj (fs : List (String × JsonVal)) (f : List (String × JsonVal)) :
    evalFilter (JsonVal.obj fs) f = Except.ok (specFilterAccepts (JsonVal.obj fs) f) := by
  induction f with
  | nil => rfl
  | cons kv rest ih =>
    obtain ⟨k, v⟩ := kv
    simp only [evalFilter, jsProp, specFilterAccepts, List.all_cons]
    by_cases h : jsStrictEq (getField fs k) (some v) = true
    · rw [if_pos h, h, Bool.true_and]
      simpa [specFilterAccepts] using ih
    · rw [if_neg h]
      rw [Bool.not_eq_true] at h
      rw [h, Bool.false_and]

lemma processOneSub_obj (now : Rat) (topic : String) (fs : List (String × JsonVal))
    (f : List (String × JsonVal)) (store : List SensorEvent) (sub : Subscription)
    (hf : sub.filter = some f) (hp : sub.paused = false)
    (hm : topicMatches topic sub.topic = true) :
    processOneSub now topic (JsonVal.obj fs) store sub =
      (if specFilterAccepts (JsonVal.obj fs) f then
        addSensorData now store topic (JsonVal.obj fs) (mkAnalysis topic (JsonVal.obj fs))
      else store) := by
  simp only [processOneSub, hf, hp, hm, typeofIsObject, Bool.not_true, Bool.false_eq_true,
    if_false, evalFilter_obj]
  by_cases h : specFilterAccepts (JsonVal.obj fs) f = true
  · rw [h]
    simp
  · rw [Bool.not_eq_true] at h
    rw [h]
    simp

lemma processOneSub_filter_fails (now : Rat) (topic : String) (fs : List (String × JsonVal))
    (f : List (String × JsonVal)) (store : List SensorEvent) (sub : Subscription)
    (hf : sub.filter = some f)
    (hacc : specFilterAccepts (JsonVal.obj fs) f = false) :
    processOneSub now topic (JsonVal.obj fs) store sub = store := by
  by_cases hm : topicMatches topic sub.topic = true
  · by_cases hp : sub.paused = true
    · simp [processOneSub, hm, hp]
    · rw [Bool.not_eq_true] at hp
      simp only [processOneSub, hf, hm, hp, typeofIsObject, Bool.not_true, Bool.false_eq_true,
        if_false, evalFilter_obj, hacc]
      simp
  · rw [Bool.not_eq_true] at hm
    simp [processOneSub, hm]

/-- C8 (amended): for a delivery whose payload parses to a structured object,
a matched, non-paused subscription with a configured filter forwards the
message to the shared store exactly when every filter field equals the
corresponding payload field (AND over all fields), and otherwise leaves the
store untouched; a subscription whose filter rejects the message contributes
nothing to the dispatch of that message, whatever the other subscriptions do
(removing it from the subscription list leaves the dispatch result
unchanged). -/
theorem C8_filter_semantics :
    (∀ (now : Rat) (topic : String) (fs f : List (String × JsonVal))
        (store : List SensorEvent) (sub : Subscription),
      sub.filter = some f → sub.paused = false → topicMatches topic sub.topic = true →
      processOneSub now topic (JsonVal.obj fs) store sub =
        (if specFilterAccepts (JsonVal.obj fs) f then
          addSensorData now store topic (JsonVal.obj fs) (mkAnalysis topic (JsonVal.obj fs))
        else store)) ∧
    (∀ (now : Rat) (topic : String) (fs f : List (String × JsonVal))
        (store : List SensorEvent) (sub : Subscription)
        (subs1 subs2 : List Subscription),
      sub.filter = some f → specFilterAccepts (JsonVal.obj fs) f = false →
      handleMessage now (subs1 ++ sub :: subs2) topic (JsonVal.obj fs) store =
        handleMessage now (subs1 ++ subs2) topic (JsonVal.obj fs) store) := by
  constructor
  · exact processOneSub_obj
  · intro now topic fs f store sub subs1 subs2 hf hacc
    simp only [handleMessage, List.foldl_append, List.foldl_cons]
    rw [processOneSub_filter_fails now topic fs f _ sub hf hacc]

/-- C8 counterexample: the claim as stated fails on payloads that do not parse
to an object. The subscription on `a/b` carries the filter `{device: "x"}`
and is neither paused nor unmatched; the delivered payload is the plain
string `hello`, whose fields (there are none) do not equal the filter field,
yet the dispatcher forwards the message to the store because the filter is
applied only to payloads of JavaScript type `object`. -/
theorem C8_counterexample :
    specFilterAccepts (JsonVal.str "hello") [("device", JsonVal.str "x")] = false ∧
    c8Sub.filter = some [("device", JsonVal.str "x")] ∧
    c8Sub.paused = false ∧
    topicMatches "a/b" c8Sub.topic = true ∧
    handleMessage 0 [c8Sub] "a/b" (JsonVal.str "hello") [] =
      [⟨"a/b", JsonVal.str "hello", 0, mkAnalysis "a/b" (JsonVal.str "hello")⟩] := by
  refine ⟨rfl, rfl, rfl, by decide, ?_⟩
  rfl

/-- C8 witness: the per-subscription clause of `C8_filter_semantics` at the
subscription `c8Sub` and an object payload whose `device` field differs from
the filter value. -/
theorem C8_filter_semantics_witness :
    processOneSub 0 "a/b" (JsonVal.obj [("device", JsonVal.str "y")]) [] c8Sub =
      (if specFilterAccepts (JsonVal.obj [("device", JsonVal.str "y")])
          [("device", JsonVal.str "x")] then
        addSensorData 0 [] "a/b" (JsonVal.obj [("device", JsonVal.str "y")])
          (mkAnalysis "a/b" (JsonVal.obj [("device", JsonVal.str "y")]))
      else []) :=
  C8_filter_semantics.1 0 "a/b" [("device", JsonVal.str "y")]
    [("device", JsonVal.str "x")] [] c8Sub rfl rfl (by decide)
